import Mathlib

/-!
Verification development for the negative-sample augmentation pipeline of
`rxnebm/data/dataset.py` (classes `AugmentedDataFingerprints`,
`ReactionDatasetFingerprints`, `ReactionDatasetSMILES`).

Shallow embedding conventions:
* a sparse fingerprint row vector is modelled as a dense `List Int` (`Fp`);
* a sparse matrix is a list of such rows;
* files written by the precompute engines are modelled by the inductive
  `FName`: the real code writes shard files named `<stem>_<i>.npz` and final
  output files named by `output_filename`, which are always distinct path
  strings, so the two constructors keep them apart;
* the helper module `rxnebm.data.augmentors` is imported by `dataset.py` but
  is not part of the sources; the few functions of it that the claims need
  (`make_rxn_fp`, `rcts_prod_fps_from_rxn_smi`, and the per-augmentor output
  contract) are modelled from the specification and carry a doc comment
  saying so.
-/

namespace RxnEbm

/-- Dense view of one sparse fingerprint row vector. -/
abbrev Fp := List Int

/-- Reaction SMILES split at the `>>` arrow: the reactants part and the
product part, as looked up in the fingerprint store. -/
structure RxnSmi where
  rcts : String
  prod : String
deriving DecidableEq, Repr

/-- Modelled from the spec: `augmentors.make_rxn_fp` (the `augmentors` module
is not under `src/`).  Spec 4.1: for `diff` the reaction fingerprint is the
elementwise subtraction product − reactants; for `sep` it is the horizontal
concatenation of reactants and product. -/
def make_rxn_fp (rxn_type : String) (rcts_fp prod_fp : Fp) : Fp :=
  if rxn_type = "sep" then rcts_fp ++ prod_fp
  else prod_fp.zipWith (fun p r => p - r) rcts_fp

/-- Modelled from the spec: `augmentors.rcts_prod_fps_from_rxn_smi` (the
`augmentors` module is not under `src/`).  Spec 4.1: look up the reactants
fingerprint and the product fingerprint in the fingerprint store; an absent
SMILES is a `KeyError`, modelled as `none`. -/
def rcts_prod_fps (store : String → Option Fp) (rxn : RxnSmi) :
    Option (Fp × Fp) := do
  let rcts_fp ← store rxn.rcts
  let prod_fp ← store rxn.prod
  pure (rcts_fp, prod_fp)

/-- Concatenation performed by `sparse.hstack([pos_rxn_fp,
*minibatch_neg_rxn_fps])` in `AugmentedDataFingerprints.get_one_minibatch`
(dataset.py lines 288-302): the positive reaction fingerprint followed by the
fingerprints produced by each augmentor (`augOuts` holds one output list per
active augmentor, in registration order), flattened into a single row. -/
def minibatch_row (pos_rxn_fp : Fp) (augOuts : List (List Fp)) : Fp :=
  pos_rxn_fp ++ augOuts.flatten.flatten

/-- Embedding of `AugmentedDataFingerprints.get_one_minibatch` (dataset.py
lines 279-303): compute the positive reaction fingerprint from the store,
then append every augmentor's negative fingerprints. -/
def get_one_minibatch (store : String → Option Fp) (rxn_type : String)
    (rxn : RxnSmi) (augOuts : List (List Fp)) : Option Fp := do
  let (rcts_fp, prod_fp) ← rcts_prod_fps store rxn
  pure (minibatch_row (make_rxn_fp rxn_type rcts_fp prod_fp) augOuts)

/-- Embedding of `toarray().reshape(-1, self.input_dim)` in
`ReactionDatasetFingerprints.__getitem__` (dataset.py line 549): cut the flat
row into consecutive chunks of `input_dim` entries.  (numpy raises when the
length is not divisible by `input_dim`; this model simply drops a short
remainder, and every theorem below is used at divisible lengths.) -/
def reshape_row (input_dim : Nat) (row : Fp) : List Fp :=
  (List.range (row.length / input_dim)).map
    (fun i => (row.drop (i * input_dim)).take input_dim)

/-- Embedding of `mask = torch.sum(rxn_smi_fps.bool(), axis=1).bool()` in
`ReactionDatasetFingerprints.__getitem__` (dataset.py line 551): the mask is
the row-wise any-nonzero test over the reshaped fingerprints. -/
def getitem_mask (input_dim : Nat) (row : Fp) : List Bool :=
  (reshape_row input_dim row).map (fun fp => fp.any (fun x => x != 0))

/-- One entry of the `augmentations` configuration dict: the augmentor name
(the dict key) and its `num_neg` parameter.  The other per-augmentor
parameters (`num_bits`, `query_params`, ...) do not affect any claim and are
omitted. -/
structure AugEntry where
  name : String
  num_neg : Nat
deriving DecidableEq, Repr

/-- The four augmentor families dispatched by
`AugmentedDataFingerprints.__init__` (`"mut"` and `"crem"` both map to the
Mutate augmentor). -/
inductive AugKind where
  | cos
  | rdm
  | bit
  | mut
deriving DecidableEq, Repr

/-- Name dispatch of the construction loop (dataset.py lines 192-201). -/
def augKindOf (name : String) : Option AugKind :=
  if name = "cos" then some AugKind.cos
  else if name = "rdm" then some AugKind.rdm
  else if name = "bit" then some AugKind.bit
  else if name = "mut" then some AugKind.mut
  else if name = "crem" then some AugKind.mut
  else none

/-- Resources acquired by the `_init_*` helpers at construction time: only
`_init_mutate` opens a file (the mutation-pool pickle, dataset.py lines
260-263); `_init_cosine` deliberately leaves `search_index = None` to be
loaded later, and `_init_random` / `_init_bit` open nothing. -/
inductive Resource where
  | mutSmisFile
deriving DecidableEq, Repr

/-- Resource acquisition per constructed augmentor kind. -/
def resourcesOf : AugKind → List Resource
  | AugKind.mut => [Resource.mutSmisFile]
  | _ => []

/-- A constructed augmentor as it sits in `self.augs`: its kind and the
`num_neg` it was constructed with. -/
structure AugSpec where
  kind : AugKind
  num_neg : Nat
deriving DecidableEq, Repr

/-- Error message of `raise ValueError('Invalid augmentation!')`
(dataset.py line 201). -/
def invalidAugMsg : String := "Invalid augmentation!"

/-- Embedding of the augmentor-construction loop of
`AugmentedDataFingerprints.__init__` (dataset.py lines 188-201): entries with
`num_neg == 0` are skipped by `continue` before the name dispatch; recognized
names construct an augmentor (acquiring its resources); any other name raises
`ValueError('Invalid augmentation!')`.  The result is the list of constructed
augmentors (in configuration order) together with the resources acquired. -/
def init_augs : List AugEntry → Except String (List AugSpec × List Resource)
  | [] => Except.ok ([], [])
  | e :: rest =>
    if e.num_neg = 0 then init_augs rest
    else
      match augKindOf e.name with
      | some k =>
        match init_augs rest with
        | Except.ok (specs, res) =>
          Except.ok (⟨k, e.num_neg⟩ :: specs, resourcesOf k ++ res)
        | Except.error msg => Except.error msg
      | none => Except.error invalidAugMsg

/-- Total `num_neg` over a list of constructed augmentors. -/
def sum_num_neg (specs : List AugSpec) : Nat :=
  (specs.map AugSpec.num_neg).sum

/-- Total `num_neg` over the active (`num_neg > 0`) configuration entries. -/
def active_num_neg (config : List AugEntry) : Nat :=
  ((config.filter (fun e => e.num_neg != 0)).map AugEntry.num_neg).sum

/-- File names written or checked by the precompute engines.  `out name`
models `self.root / output_filename`; `shard stem i` models the checkpoint
file `self.root / f"{Path(output_filename).stem}_{i}.npz"`.  The two path
strings are always distinct (`_<i>.npz` suffix versus the plain output name),
which the two constructors capture. -/
inductive FName where
  | out (name : String)
  | shard (stem : String) (idx : Nat)
deriving DecidableEq, Repr

/-- Files on disk: a list of named sparse matrices. -/
abbrev FileSys := List (FName × List Fp)

/-- Names of the files present in a file system. -/
def fileNames (fs : FileSys) : List FName :=
  fs.map Prod.fst

/-- Embedding of the checkpoint loop of
`AugmentedDataFingerprints.precompute_light_memory` (dataset.py lines
359-372).  `i` is the running row index, `buf` the rows accumulated since the
last checkpoint (`diff_fps`), `rows` the remaining minibatch rows.  A
checkpoint fires after appending row `i` whenever `i > 0 and i % interval ==
0`, saving the buffer as shard `i` and resetting it; after the loop the
remaining buffer is saved under the final row index (Python leaves the loop
variable `i` bound to the last index, hence `i - 1` in the nil case — on an
empty corpus the real code crashes on the unbound `i`, so the theorems below
assume a nonempty corpus). -/
def light_go (interval : Nat) (stem : String) :
    Nat → List Fp → List Fp → List (FName × List Fp)
  | i, buf, [] => [(FName.shard stem (i - 1), buf)]
  | i, buf, r :: rest =>
    if 0 < i ∧ i % interval = 0 then
      (FName.shard stem i, buf ++ [r]) :: light_go interval stem (i + 1) [] rest
    else
      light_go interval stem (i + 1) (buf ++ [r]) rest

/-- Embedding of `AugmentedDataFingerprints.precompute_light_memory`
(dataset.py lines 330-373) as the list of `save_npz` writes it performs: if
the output file already exists nothing is written; otherwise the checkpoint
loop runs with the hard-coded interval 19000.  The function returns after the
final shard save and never concatenates the shards or writes the output
path. -/
def precompute_light_memory (fs : FileSys) (output : String)
    (rows : List Fp) : List (FName × List Fp) :=
  if FName.out output ∈ fileNames fs then []
  else light_go 19000 output 0 [] rows

/-- Embedding of `AugmentedDataFingerprints.precompute` (dataset.py lines
375-440) in its non-distributed forms: if the output file already exists the
call returns immediately (no write); otherwise every reaction's minibatch row
is computed (`row_fn` models `self[i]`, i.e. `get_one_minibatch`) and the
stacked matrix is saved once at the output path.  Returns the resulting file
system. -/
def precompute (fs : FileSys) (output : String) (row_fn : String → Fp)
    (rxn_smis : List String) : FileSys :=
  if FName.out output ∈ fileNames fs then fs
  else fs ++ [(FName.out output, rxn_smis.map row_fn)]

/-- Embedding of the parallel branch of `precompute` (dataset.py lines
404-415): the process pool is sized by `num_workers`, but exactly one task is
submitted — `client.submit(self.precompute_helper)` — carrying the whole
corpus.  The task list therefore is the singleton `[rxn_smis]`, whatever the
worker count. -/
def parallel_tasks (num_workers : Nat) (rxn_smis : List String) :
    List (List String) :=
  [rxn_smis]

/-- Rows gathered from the parallel branch: each task runs
`precompute_helper`, which maps `self[i]` over its reactions in order
(dataset.py lines 325-328), and the task results are concatenated. -/
def precompute_parallel (num_workers : Nat) (row_fn : String → Fp)
    (rxn_smis : List String) : List Fp :=
  ((parallel_tasks num_workers rxn_smis).map
    (fun task => task.map row_fn)).flatten

/-- Backing store selected by `ReactionDatasetFingerprints.__init__`: either
the loaded precomputed matrix or the on-the-fly augmentation pipeline (held
as the `augmented_data` argument, possibly absent). -/
inductive Backing where
  | precomp (rows : List Fp)
  | onfly (augmented_data : Option (List AugEntry))
deriving DecidableEq, Repr

/-- Error message of the `RuntimeError` raised by
`ReactionDatasetFingerprints.__init__` (dataset.py lines 525-527). -/
def runtimeErrMsg : String :=
  "Please provide precomp_rxnfp_filename or set onthefly = True!"

/-- Embedding of the backing-store selection of
`ReactionDatasetFingerprints.__init__` (dataset.py lines 510-527): when the
precomputed fingerprint file exists it is loaded (this takes priority); else
when `onthefly` is set the supplied `augmented_data` pipeline is used; else a
`RuntimeError` is raised.  `fs` maps file names to their matrices. -/
def reaction_dataset_init (fs : List (String × List Fp))
    (precomp_rxnfp_filename : String) (onthefly : Bool)
    (augmented_data : Option (List AugEntry)) : Except String Backing :=
  match fs.lookup precomp_rxnfp_filename with
  | some m => Except.ok (Backing.precomp m)
  | none =>
    if onthefly then Except.ok (Backing.onfly augmented_data)
    else Except.error runtimeErrMsg

/-- One data row of the proposals CSV as yielded by `csv.DictReader` (the
header line is already consumed by the reader as field names): the product
SMILES, the true precursor, and the candidate-precursor columns
`cand_precursor_1..200` (or `neg_precursor_j`, read identically) in column
order. -/
structure ProposalRow where
  prod_smi : String
  true_precursors : String
  cands : List String
deriving DecidableEq, Repr

/-- Test `cand.isnumeric() and int(cand) == 9999` (dataset.py line 650):
the candidate slot is the numeric filler 9999. -/
def is_filler_9999 (s : String) : Bool :=
  match s.toNat? with
  | some n => n == 9999
  | none => false

/-- Reaction arrow used to assemble reaction SMILES strings. -/
def rxnArrow : String := ">>"

/-- Reactions built from one proposals-CSV row (dataset.py lines 639-652):
the true reaction first, then one candidate reaction per candidate column,
skipping candidates equal to the true precursor and the 9999 fillers. -/
def row_smiles (r : ProposalRow) : List String :=
  (r.true_precursors ++ rxnArrow ++ r.prod_smi) ::
    ((r.cands.filter
        (fun c => !(c == r.true_precursors) && !(is_filler_9999 c))).map
      (fun c => c ++ rxnArrow ++ r.prod_smi))

/-- Embedding of the finetune CSV-conversion loop of
`ReactionDatasetSMILES.__init__` (dataset.py lines 630-654): the data rows are
enumerated and the loop `continue`s at enumeration index 0, so the first data
row — a real reaction, since `DictReader` already consumed the header — is
skipped. -/
def finetune_all_smiles (rows : List ProposalRow) : List (List String) :=
  ((rows.enum.filter (fun p => p.1 != 0)).map (fun p => row_smiles p.2))

/-- Replacement SMILES hard-coded for empty augmentor outputs
(dataset.py line 718). -/
def filler_smi : String := "CC"

/-- Embedding of one pretrain minibatch of
`ReactionDatasetSMILES.get_smiles_and_masks` (dataset.py lines 708-721): the
positive reaction SMILES followed by each augmentor's negative SMILES; the
mask is `bool(smi)` over the original strings, and empty strings are then
replaced by `"CC"` in the stored SMILES list. -/
def pretrain_minibatch (augs : List (String → List String))
    (rxn_smi : String) : List String × List Bool :=
  let minibatch_smiles := rxn_smi :: (augs.map (fun aug => aug rxn_smi)).flatten
  (minibatch_smiles.map (fun smi => if smi == "" then filler_smi else smi),
   minibatch_smiles.map (fun smi => !(smi == "")))

/-- Embedding of the pretrain branch of
`ReactionDatasetSMILES.get_smiles_and_masks` (dataset.py lines 707-721): one
minibatch is appended per reaction of `self.rxn_smis[:1000]` — only the first
1000 corpus reactions are iterated. -/
def get_smiles_and_masks_pretrain (augs : List (String → List String))
    (rxn_smis : List String) : List (List String) × List (List Bool) :=
  let mbs := (rxn_smis.take 1000).map (pretrain_minibatch augs)
  (mbs.map Prod.fst, mbs.map Prod.snd)

/-- Embedding of `ReactionDatasetSMILES.__len__` (dataset.py lines 883-884)
for the pretrain on-the-fly mode: the length of
`self._rxn_smiles_with_negatives`. -/
def smiles_dataset_len (augs : List (String → List String))
    (rxn_smis : List String) : Nat :=
  (get_smiles_and_masks_pretrain augs rxn_smis).1.length

/-! Concrete inputs used by counterexamples and witnesses. -/

/-- Configuration holding a single unrecognized augmentor name with
`num_neg = 0`. -/
def cfgBogus : List AugEntry := [⟨"bogus", 0⟩]

/-- Configuration activating only the Random augmentor with one negative. -/
def cfgRdm1 : List AugEntry := [⟨"rdm", 1⟩]

/-- Augmentor list constructed from `cfgRdm1`. -/
def specsRdm1 : List AugSpec := [⟨AugKind.rdm, 1⟩]

/-- Toy fingerprint store holding one molecule `A` with fingerprint
`[1, 0]`. -/
def storeA : String → Option Fp :=
  fun s => if s = "A" then some [1, 0] else none

/-- The degenerate reaction `A>>A`: reactants and product identical. -/
def rxnAA : RxnSmi := ⟨"A", "A"⟩

/-- Reaction-fingerprint type `diff`. -/
def diffType : String := "diff"

/-- The all-zero length-2 reaction fingerprint row. -/
def zeroRow2 : Fp := [0, 0]

/-- Output file name used in precompute examples. -/
def lightOut : String := "rxn_fps_train.npz"

/-- Second output file name used in precompute examples. -/
def precompOut : String := "rxn_fps_valid.npz"

/-- Precomputed-fingerprint file name used in dataset examples. -/
def precompName : String := "50k_rxn_fps.npz"

/-- Row function mapping every reaction to a fixed toy row. -/
def toyRowFn : String → Fp := fun _ => [1]

/-- Four-reaction toy corpus. -/
def corpus4 : List String := ["r1", "r2", "r3", "r4"]

/-- A pretrain reaction SMILES used to build a large toy corpus. -/
def pretrainSmi : String := "C1CCCCC1>>C1CCCCC1O"

/-- A 1001-reaction corpus, one more than the hard-coded pretrain cap. -/
def corpus1001 : List String := List.replicate 1001 pretrainSmi

/-! Theorems.  Helper lemmas come first, then one theorem per claim (with its
counterexample and witness where required). -/

/-- Helper: a flat list of fingerprints that all have length `d` flattens to
`count * d` entries. -/
theorem flatten_len_const (d : Nat) :
    ∀ out : List Fp, (∀ fp ∈ out, fp.length = d) →
      out.flatten.length = out.length * d
  | [], _ => by simp
  | fp :: rest, h => by
    have hfp : fp.length = d := h fp (List.mem_cons_self fp rest)
    have hrest := flatten_len_const d rest
      (fun x hx => h x (List.mem_cons_of_mem fp hx))
    simp only [List.flatten_cons, List.length_append, List.length_cons, hfp,
      hrest]
    ring

/-- Helper: total length of all augmentor outputs, when the `i`-th output has
`specs[i].num_neg` fingerprints of dimension `d` each. -/
theorem aug_outs_len (d : Nat) :
    ∀ (outs : List (List Fp)) (specs : List AugSpec),
      outs.length = specs.length →
      (∀ p ∈ outs.zip specs,
        p.1.length = p.2.num_neg ∧ ∀ fp ∈ p.1, fp.length = d) →
      outs.flatten.flatten.length = sum_num_neg specs * d
  | [], [], _, _ => by simp [sum_num_neg]
  | [], _ :: _, hlen, _ => by simp at hlen
  | _ :: _, [], hlen, _ => by simp at hlen
  | out :: outs, s :: specs, hlen, h => by
    have hhead := h (out, s) (by simp [List.zip_cons_cons])
    have htail := aug_outs_len d outs specs (by simpa using hlen)
      (fun p hp => h p (by simp [List.zip_cons_cons, hp]))
    simp only [List.flatten_cons, List.flatten_append, List.length_append,
      htail, flatten_len_const d out hhead.2, hhead.1]
    simp [sum_num_neg, Nat.add_mul]

/-- Helper: `reshape_row` produces `row.length / input_dim` chunks. -/
theorem reshape_row_length (input_dim : Nat) (row : Fp) :
    (reshape_row input_dim row).length = row.length / input_dim := by
  simp [reshape_row]

/-- Helper: the augmentors constructed by `init_augs` carry exactly the
`num_neg` totals of the active configuration entries. -/
theorem init_augs_sum :
    ∀ (config : List AugEntry) (specs : List AugSpec) (res : List Resource),
      init_augs config = Except.ok (specs, res) →
      sum_num_neg specs = active_num_neg config
  | [], specs, res, h => by
    simp only [init_augs] at h
    cases h
    simp [sum_num_neg, active_num_neg]
  | e :: rest, specs, res, h => by
    by_cases hz : e.num_neg = 0
    · simp only [init_augs, hz, if_true, eq_self_iff_true] at h
      have := init_augs_sum rest specs res h
      simp [active_num_neg, List.filter_cons, hz, this]
    · rw [show init_augs (e :: rest)
          = (if e.num_neg = 0 then init_augs rest
             else
               match augKindOf e.name with
               | some k =>
                 match init_augs rest with
                 | Except.ok (specs, res) =>
                   Except.ok (⟨k, e.num_neg⟩ :: specs, resourcesOf k ++ res)
                 | Except.error msg => Except.error msg
               | none => Except.error invalidAugMsg) from rfl,
        if_neg hz] at h
      cases hk : augKindOf e.name with
      | none => rw [hk] at h; cases h
      | some k =>
        rw [hk] at h
        cases hr : init_augs rest with
        | error msg => rw [hr] at h; cases h
        | ok p =>
          rw [hr] at h
          cases p with
          | mk specs' res' =>
            cases h
            have hsum := init_augs_sum rest specs' res' hr
            have hfil : (e :: rest).filter (fun x => x.num_neg != 0)
                = e :: rest.filter (fun x => x.num_neg != 0) := by
              simp [List.filter_cons, hz]
            simp only [sum_num_neg, active_num_neg, hfil, List.map_cons,
              List.sum_cons] at hsum ⊢
            omega

/-- C7: every `augmentations` entry with `num_neg == 0` is skipped entirely
by `AugmentedDataFingerprints.__init__`: the constructed augmentor list and
the acquired resources are exactly those of the configuration restricted to
its active (`num_neg ≠ 0`) entries, so a zero entry constructs no augmentor,
contributes no callable, and acquires no resource. -/
theorem c7_zero_num_neg_skipped (config : List AugEntry) :
    init_augs config = init_augs (config.filter (fun e => e.num_neg != 0)) := by
  induction config with
  | nil => rfl
  | cons e rest ih =>
    by_cases hz : e.num_neg = 0
    · simp [init_augs, hz, ih, List.filter_cons]
    · simp only [List.filter_cons, hz, bne_iff_ne, ne_eq, not_false_iff,
        if_true, ite_true]
      show init_augs (e :: rest) = init_augs (e :: rest.filter _)
      simp only [init_augs, hz, if_false, ite_false, ih]

/-- C6 counterexample: a configuration whose only key `"bogus"` is not a
recognized augmentor name but has `num_neg = 0` passes construction silently
(`init_augs` succeeds with no augmentors and no error), because the
`num_neg == 0` skip precedes the name dispatch; the claim that construction
raises `ValueError` for every configuration containing an unknown name is
therefore false. -/
theorem c6_counterexample : init_augs cfgBogus = Except.ok ([], []) := rfl

/-- Helper: the only error ever produced by `init_augs` is
`'Invalid augmentation!'`. -/
theorem init_augs_error_msg :
    ∀ (config : List AugEntry) (msg : String),
      init_augs config = Except.error msg → msg = invalidAugMsg
  | [], msg, h => by simp [init_augs] at h
  | e :: rest, msg, h => by
    by_cases hz : e.num_neg = 0
    · exact init_augs_error_msg rest msg (by simpa [init_augs, hz] using h)
    · cases hk : augKindOf e.name with
      | none =>
        have heq : init_augs (e :: rest) = Except.error invalidAugMsg := by
          simp [init_augs, hz, hk]
        have := heq.symm.trans h
        cases this
        rfl
      | some k =>
        cases hr : init_augs rest with
        | error msg' =>
          have heq : init_augs (e :: rest) = Except.error msg' := by
            simp [init_augs, hz, hk, hr]
          have := heq.symm.trans h
          cases this
          exact init_augs_error_msg rest msg hr
        | ok p =>
          cases p with
          | mk specs' res' =>
            have heq : init_augs (e :: rest)
                = Except.ok (⟨k, e.num_neg⟩ :: specs', resourcesOf k ++ res') := by
              simp [init_augs, hz, hk, hr]
            rw [heq] at h
            cases h

/-- C6 amended: `AugmentedDataFingerprints.__init__` raises
`ValueError('Invalid augmentation!')` exactly when the configuration contains
an entry whose name is not a recognized augmentor name and whose `num_neg` is
nonzero; an unknown name with `num_neg == 0` is skipped silently (and a
constructed pipeline never errors at sampling time). -/
theorem c6_amended_error_iff (config : List AugEntry) :
    init_augs config = Except.error invalidAugMsg ↔
      ∃ e ∈ config, augKindOf e.name = none ∧ e.num_neg ≠ 0 := by
  induction config with
  | nil => simp [init_augs]
  | cons e rest ih =>
    by_cases hz : e.num_neg = 0
    · rw [show init_augs (e :: rest) = init_augs rest by simp [init_augs, hz],
        ih]
      constructor
      · intro hr
        obtain ⟨x, hx, hprop⟩ := hr
        exact ⟨x, List.mem_cons_of_mem e hx, hprop⟩
      · intro hr
        obtain ⟨x, hx, hprop⟩ := hr
        cases List.mem_cons.mp hx with
        | inl hxe =>
          rw [hxe] at hprop
          exact absurd hz hprop.2.elim
        | inr hxr => exact ⟨x, hxr, hprop⟩
    · cases hk : augKindOf e.name with
      | none =>
        have heq : init_augs (e :: rest) = Except.error invalidAugMsg := by
          simp [init_augs, hz, hk]
        rw [heq]
        exact iff_of_true rfl ⟨e, List.mem_cons_self e rest, hk, hz⟩
      | some k =>
        cases hr : init_augs rest with
        | error msg =>
          have hmsg : msg = invalidAugMsg := init_augs_error_msg rest msg hr
          subst hmsg
          have heq : init_augs (e :: rest) = Except.error invalidAugMsg := by
            simp [init_augs, hz, hk, hr]
          rw [heq]
          obtain ⟨x, hx, hprop⟩ := ih.mp hr
          exact iff_of_true rfl ⟨x, List.mem_cons_of_mem e hx, hprop⟩
        | ok p =>
          cases p with
          | mk specs' res' =>
            have heq : init_augs (e :: rest)
                = Except.ok (⟨k, e.num_neg⟩ :: specs', resourcesOf k ++ res') := by
              simp [init_augs, hz, hk, hr]
            rw [heq]
            constructor
            · intro hfalse
              cases hfalse
            · intro hex
              obtain ⟨x, hx, hprop⟩ := hex
              cases List.mem_cons.mp hx with
              | inl hxe =>
                rw [hxe] at hprop
                rw [hprop.1] at hk
                cases hk
              | inr hxr =>
                have hcontra : init_augs rest = Except.error invalidAugMsg :=
                  ih.mpr ⟨x, hxr, hprop⟩
                rw [hr] at hcontra
                cases hcontra

/-- C1: for every reaction, the minibatch produced by the pipeline and the
boolean mask have equal length `K = 1 + Σ num_neg` over the active
(`num_neg > 0`) augmentors: `get_one_minibatch` stacks the positive reaction
fingerprint followed by every augmentor's negatives, and
`ReactionDatasetFingerprints.__getitem__` reshapes the row to
`[K, input_dim]` and computes a mask of the same length `K`.  The hypothesis
`houts` is the augmentor output contract, modelled from the spec (each active
augmentor returns exactly its `num_neg` reaction fingerprints of the
configured dimension, padding with all-zero fillers when necessary). -/
theorem c1_minibatch_mask_length (input_dim : Nat) (config : List AugEntry)
    (specs : List AugSpec) (res : List Resource) (pos_rxn_fp : Fp)
    (augOuts : List (List Fp))
    (hd : 0 < input_dim)
    (hinit : init_augs config = Except.ok (specs, res))
    (hpos : pos_rxn_fp.length = input_dim)
    (hlen : augOuts.length = specs.length)
    (houts : ∀ p ∈ augOuts.zip specs,
      p.1.length = p.2.num_neg ∧ ∀ fp ∈ p.1, fp.length = input_dim) :
    (reshape_row input_dim (minibatch_row pos_rxn_fp augOuts)).length
        = 1 + active_num_neg config ∧
      (getitem_mask input_dim (minibatch_row pos_rxn_fp augOuts)).length
        = 1 + active_num_neg config := by
  have hnegs := aug_outs_len input_dim augOuts specs hlen houts
  have hrow : (minibatch_row pos_rxn_fp augOuts).length
      = (1 + sum_num_neg specs) * input_dim := by
    simp only [minibatch_row, List.length_append, hpos, hnegs]
    ring
  have hsum := init_augs_sum config specs res hinit
  have hcount : (reshape_row input_dim (minibatch_row pos_rxn_fp augOuts)).length
      = 1 + active_num_neg config := by
    rw [reshape_row_length, hrow, Nat.mul_div_cancel _ hd, hsum]
  exact ⟨hcount, by rw [getitem_mask, List.length_map, hcount]⟩

/-- C1 witness: the theorem applied to a concrete pipeline — dimension 2, the
Random augmentor active with one negative, a positive fingerprint `[1, 0]`
and one augmentor output `[[0, 3]]` — yields minibatch and mask length
`1 + 1 = 2`. -/
theorem c1_minibatch_mask_length_witness :
    (reshape_row 2 (minibatch_row [1, 0] [[[0, 3]]])).length
        = 1 + active_num_neg cfgRdm1 ∧
      (getitem_mask 2 (minibatch_row [1, 0] [[[0, 3]]])).length
        = 1 + active_num_neg cfgRdm1 :=
  c1_minibatch_mask_length 2 cfgRdm1 specsRdm1 [] [1, 0] [[[0, 3]]]
    (by decide) rfl (by decide) (by decide) (by decide)

/-- C2 counterexample: the degenerate reaction `A>>A` over the toy store
(`A ↦ [1, 0]`, `diff` fingerprints, no active augmentors) yields the all-zero
positive row, whose mask is `[false]` — so `mask[0]` is not true for every
minibatch, contradicting the claim that the position-0 fingerprint always has
a nonzero entry. -/
theorem c2_mask_head_counterexample :
    get_one_minibatch storeA diffType rxnAA [] = some zeroRow2 ∧
      getitem_mask 2 zeroRow2 = [false] := by
  constructor
  · rfl
  · rfl

/-- C2 amended: `mask[0]` equals the any-nonzero test on the positive
reaction fingerprint — it is true exactly when the positive fingerprint has a
nonzero entry; with `diff`-type fingerprints it is false whenever the product
fingerprint equals the summed reactants fingerprint (e.g. the degenerate
reaction `A>>A`), so the invariant holds only for reactions whose positive
fingerprint is nonzero. -/
theorem c2_mask_head_amended (input_dim : Nat) (pos_rxn_fp : Fp)
    (augOuts : List (List Fp)) (hd : 0 < input_dim)
    (hpos : pos_rxn_fp.length = input_dim) :
    (getitem_mask input_dim (minibatch_row pos_rxn_fp augOuts)).head?
      = some (pos_rxn_fp.any (fun x => x != 0)) := by
  have hle : input_dim ≤ (minibatch_row pos_rxn_fp augOuts).length := by
    simp only [minibatch_row, List.length_append, ← hpos]
    omega
  have hpos' : 1 ≤ (minibatch_row pos_rxn_fp augOuts).length / input_dim :=
    (Nat.one_le_div_iff hd).mpr hle
  obtain ⟨m, hm⟩ : ∃ m,
      (minibatch_row pos_rxn_fp augOuts).length / input_dim = m + 1 :=
    ⟨_, (Nat.succ_pred_eq_of_pos hpos').symm⟩
  rw [getitem_mask, reshape_row, hm, List.range_succ_eq_map, List.map_cons,
    List.map_cons, List.head?_cons]
  simp only [Nat.zero_mul, List.drop_zero, minibatch_row, ← hpos,
    List.take_left]

/-- C2 witness: the amended theorem applied to the concrete positive
fingerprint `[5]` at dimension 1 with no augmentor outputs — the mask head is
`some true`. -/
theorem c2_mask_head_witness :
    (getitem_mask 1 (minibatch_row [5] [])).head? = some true :=
  c2_mask_head_amended 1 [5] [] (by decide) (by decide)

/-- Helper: the contents of all files written by the checkpoint loop,
concatenated in write order, are the buffered rows followed by the remaining
rows. -/
theorem light_go_flatten (interval : Nat) (stem : String) :
    ∀ (rows : List Fp) (i : Nat) (buf : List Fp),
      ((light_go interval stem i buf rows).map Prod.snd).flatten = buf ++ rows
  | [], i, buf => by simp [light_go]
  | r :: rest, i, buf => by
    rw [light_go]
    by_cases h : 0 < i ∧ i % interval = 0
    · rw [if_pos h]
      simp only [List.map_cons, List.flatten_cons,
        light_go_flatten interval stem rest (i + 1) []]
      simp
    · rw [if_neg h]
      rw [light_go_flatten interval stem rest (i + 1) (buf ++ [r])]
      simp

/-- Helper: every file written by the checkpoint loop is a shard file named
from the output stem, never the output file itself. -/
theorem light_go_all_shards (interval : Nat) (stem : String) :
    ∀ (rows : List Fp) (i : Nat) (buf : List Fp) (w : FName × List Fp),
      w ∈ light_go interval stem i buf rows → ∃ j, w.1 = FName.shard stem j
  | [], i, buf, w, hw => by
    simp only [light_go, List.mem_singleton] at hw
    exact ⟨i - 1, by rw [hw]⟩
  | r :: rest, i, buf, w, hw => by
    rw [light_go] at hw
    by_cases h : 0 < i ∧ i % interval = 0
    · rw [if_pos h] at hw
      cases List.mem_cons.mp hw with
      | inl hwe => exact ⟨i, by rw [hwe]⟩
      | inr hwr => exact light_go_all_shards interval stem rest (i + 1) [] w hwr
    · rw [if_neg h] at hw
      exact light_go_all_shards interval stem rest (i + 1) (buf ++ [r]) w hw

/-- C3 counterexample: running the light-memory precompute on a fresh file
system over a two-row corpus writes exactly one shard file
(`<stem>_1.npz`) holding both rows and never writes the output path — no
concatenated final sparse matrix is produced at the given output path, so the
claim's completion step does not happen. -/
theorem c3_no_final_write_counterexample :
    precompute_light_memory [] lightOut [[1], [2]]
        = [(FName.shard lightOut 1, [[1], [2]])] ∧
      FName.out lightOut ∉
        (precompute_light_memory [] lightOut [[1], [2]]).map Prod.fst := by
  constructor
  · rfl
  · decide

/-- C3 amended: on a nonempty corpus whose output file does not yet exist,
the light-memory precompute checkpoints partial results every 19000 rows as
shard files named from the output stem; the written shard contents,
concatenated in write order, are exactly the corpus's minibatch rows in
order — but no concatenated final matrix is ever written at the given output
path (every write is a shard file; the function returns after the last shard
save).  `hlast` excludes corpus sizes of the form `19000*k + 1`, where the
trailing save runs `sparse.vstack` on an empty buffer and the real code
raises instead of writing. -/
theorem c3_light_memory_shards (fs : FileSys) (output : String)
    (rows : List Fp) (hout : FName.out output ∉ fileNames fs)
    (hne : rows ≠ [])
    (hlast : ¬(0 < rows.length - 1 ∧ (rows.length - 1) % 19000 = 0)) :
    (∀ w ∈ precompute_light_memory fs output rows,
        ∃ j, w.1 = FName.shard output j) ∧
      ((precompute_light_memory fs output rows).map Prod.snd).flatten
        = rows := by
  rw [precompute_light_memory, if_neg hout]
  exact ⟨fun w hw => light_go_all_shards 19000 output rows 0 [] w hw,
    light_go_flatten 19000 output rows 0 []⟩

/-- C3 witness: the amended theorem applied to a fresh file system and the
one-row corpus `[[3]]` — the written shard contents concatenate to the
corpus. -/
theorem c3_light_memory_shards_witness :
    ((precompute_light_memory [] lightOut [[3]]).map Prod.snd).flatten
      = [[3]] :=
  (c3_light_memory_shards [] lightOut [[3]] (by decide) (by decide)
    (by decide)).2

/-- C4: `precompute` is idempotent in the output path — if the output file
already exists the call returns the file system unchanged (no recomputation,
no write), and a second call with the same output path after a successful
first call does nothing. -/
theorem c4_precompute_idempotent (fs : FileSys) (output : String)
    (row_fn : String → Fp) (rxn_smis : List String) :
    (FName.out output ∈ fileNames fs →
        precompute fs output row_fn rxn_smis = fs) ∧
      precompute (precompute fs output row_fn rxn_smis) output row_fn rxn_smis
        = precompute fs output row_fn rxn_smis := by
  constructor
  · intro hmem
    rw [precompute, if_pos hmem]
  · by_cases hmem : FName.out output ∈ fileNames fs
    · have h1 : precompute fs output row_fn rxn_smis = fs := by
        rw [precompute, if_pos hmem]
      rw [h1, precompute, if_pos hmem]
    · have h1 : precompute fs output row_fn rxn_smis
          = fs ++ [(FName.out output, rxn_smis.map row_fn)] := by
        rw [precompute, if_neg hmem]
      have hmem2 : FName.out output
          ∈ fileNames (fs ++ [(FName.out output, rxn_smis.map row_fn)]) := by
        simp [fileNames]
      rw [h1, precompute, if_pos hmem2]

/-- C4 witness: the theorem applied at a concrete file system already holding
the output file — the call short-circuits and leaves it unchanged. -/
theorem c4_precompute_idempotent_witness :
    precompute [(FName.out precompOut, [[7]])] precompOut toyRowFn corpus4
      = [(FName.out precompOut, [[7]])] :=
  (c4_precompute_idempotent [(FName.out precompOut, [[7]])] precompOut
    toyRowFn corpus4).1 (by decide)

/-- C5 counterexample: with two workers and a four-reaction corpus, the
parallel branch submits a single task carrying the whole corpus — the task
list is `[corpus]` of length 1, not a partition of the corpus across the two
worker processes. -/
theorem c5_no_partition_counterexample :
    parallel_tasks 2 corpus4 = [corpus4] ∧
      (parallel_tasks 2 corpus4).length ≠ 2 := by
  constructor
  · rfl
  · decide

/-- C5 amended: in parallel mode the engine submits the entire corpus as one
task (`client.submit(self.precompute_helper)`), executed by a single worker
that maps `get_one_minibatch` over the corpus sequentially; the gathered
output rows therefore equal the in-order map over the corpus — row order
matches corpus order trivially, not through multi-worker partitioning. -/
theorem c5_parallel_row_order (num_workers : Nat) (row_fn : String → Fp)
    (rxn_smis : List String) :
    precompute_parallel num_workers row_fn rxn_smis = rxn_smis.map row_fn := by
  simp [precompute_parallel, parallel_tasks]

/-- C8: `ReactionDatasetFingerprints` construction fails with the
`RuntimeError` message whenever the precomputed reaction-fingerprint file
does not exist and `onthefly` is false; when the precomputed file exists it
is loaded (whatever `onthefly` is); and when the file is absent but
`onthefly` is true the supplied `augmented_data` pipeline is used instead. -/
theorem c8_dataset_init_cases (fs : List (String × List Fp))
    (precomp_rxnfp_filename : String)
    (augmented_data : Option (List AugEntry)) :
    (fs.lookup precomp_rxnfp_filename = none →
        reaction_dataset_init fs precomp_rxnfp_filename false augmented_data
          = Except.error runtimeErrMsg) ∧
      (∀ m, fs.lookup precomp_rxnfp_filename = some m → ∀ onthefly,
        reaction_dataset_init fs precomp_rxnfp_filename onthefly
            augmented_data
          = Except.ok (Backing.precomp m)) ∧
      (fs.lookup precomp_rxnfp_filename = none →
        reaction_dataset_init fs precomp_rxnfp_filename true augmented_data
          = Except.ok (Backing.onfly augmented_data)) := by
  refine ⟨fun hnone => ?_, fun m hsome onthefly => ?_, fun hnone => ?_⟩
  · rw [reaction_dataset_init, hnone]
    rfl
  · rw [reaction_dataset_init, hsome]
  · rw [reaction_dataset_init, hnone]
    rfl

/-- C8 witness: on an empty file system without on-the-fly mode, construction
fails with the `RuntimeError` message. -/
theorem c8_dataset_init_cases_witness :
    reaction_dataset_init [] precompName false none
      = Except.error runtimeErrMsg :=
  (c8_dataset_init_cases [] precompName none).1 rfl

/-- Helper: mapping `row_smiles` of the entry over an enumeration starting at
a positive index keeps every row (the `i != 0` filter drops nothing). -/
theorem enumFrom_pos_filter_map :
    ∀ (rows : List ProposalRow) (n : Nat), 0 < n →
      ((List.enumFrom n rows).filter (fun p => p.1 != 0)).map
          (fun p => row_smiles p.2)
        = rows.map row_smiles
  | [], n, _ => rfl
  | r :: rest, n, hn => by
    have hkeep : ((n, r).1 != 0) = true := by
      simp only [bne_iff_ne, ne_eq]
      omega
    simp only [List.enumFrom, List.filter_cons, hkeep, if_true, List.map_cons]
    rw [enumFrom_pos_filter_map rest (n + 1) (Nat.succ_pos n)]

/-- C9: in finetune mode the first data row yielded by the proposals-CSV
`DictReader` is unconditionally skipped (`continue` at enumeration index 0,
even though the header was already consumed by the reader): the dataset's
reaction list is built from the remaining rows only, so the first reaction
recorded in the proposals CSV never contributes an entry. -/
theorem c9_first_row_skipped (r : ProposalRow) (rest : List ProposalRow) :
    finetune_all_smiles (r :: rest) = rest.map row_smiles := by
  rw [finetune_all_smiles]
  have h0 : ((((0 : Nat), r) : Nat × ProposalRow).1 != 0) = false := by
    simp
  simp only [List.enum, List.enumFrom, List.filter_cons, h0, if_false,
    Bool.false_eq_true, ite_false]
  exact enumFrom_pos_filter_map rest 1 Nat.one_pos

/-- C10: in pretrain mode `get_smiles_and_masks` builds minibatches only for
the first 1000 reactions of the loaded corpus (`rxn_smis[:1000]`), so for any
corpus with more than 1000 reactions the dataset length returned by `__len__`
is 1000, not the corpus size. -/
theorem c10_pretrain_len_capped (augs : List (String → List String))
    (rxn_smis : List String) (h : 1000 < rxn_smis.length) :
    smiles_dataset_len augs rxn_smis = 1000 ∧
      smiles_dataset_len augs rxn_smis ≠ rxn_smis.length := by
  have hlen : smiles_dataset_len augs rxn_smis = 1000 := by
    simp only [smiles_dataset_len, get_smiles_and_masks_pretrain,
      List.length_map, List.length_take]
    omega
  exact ⟨hlen, by omega⟩

/-- C10 witness: the theorem applied to a 1001-reaction corpus with no
augmentors — the dataset length is 1000, one less than the corpus size. -/
theorem c10_pretrain_len_capped_witness :
    smiles_dataset_len [] corpus1001 = 1000 :=
  (c10_pretrain_len_capped [] corpus1001
    (by rw [corpus1001, List.length_replicate]; omega)).1

end RxnEbm
